import Mathlib

/-!
Shallow embedding of the venue conflict detection and scheduling logic of the
campus event backend (src/controllers/eventController.ts).

Timestamps (JS `Date` values) are modelled as `Int` (milliseconds since epoch);
JS `Date` comparison is numeric comparison.  The Prisma event store is modelled
as a `List Event`; `findFirst` is `List.find?` on the translated `where`
predicate, `findMany` with `orderBy startDate asc` is `filter` followed by an
insertion sort on `startDate`.  Request fields that may be absent are modelled
as `Option`; fields of the Prisma model not read by any of the handlers
embedded here (imageUrl, currentAttendees, timestamps, registrations) are
elided.
-/

namespace CampusEvent

/-- EventStatus enum from the Prisma schema. -/
inductive EventStatus where
  | PENDING
  | APPROVED
  | REJECTED
  | CANCELLED
deriving DecidableEq, Repr

/-- The organizer fields the conflict query selects (`createdBy: { select: { name, clubName } }`);
`name` is a non-null String in the schema, `clubName` is nullable. -/
structure CreatedBy where
  name : String
  clubName : Option String
deriving DecidableEq, Repr

/-- An Event row (the fields used by the scheduling handlers). -/
structure Event where
  id : String
  title : String
  description : String
  location : String
  startDate : Int
  endDate : Int
  maxAttendees : Int
  category : String
  tags : List String
  status : EventStatus
  createdById : String
  createdBy : CreatedBy
deriving DecidableEq, Repr

/-- The `status: { in: [EventStatus.APPROVED, EventStatus.PENDING] }` clause of
the conflict and schedule queries. -/
def statusBlocking (s : EventStatus) : Bool :=
  s == EventStatus.APPROVED || s == EventStatus.PENDING

/-- The `OR` of the three interval cases in `checkEventConflict`'s `where`
clause: new event starts during existing event; new event ends during existing
event; new event completely contains existing event. -/
def conflictCases (e : Event) (startDate endDate : Int) : Bool :=
  (decide (e.startDate ≤ startDate) && decide (e.endDate > startDate)) ||
  (decide (e.startDate < endDate) && decide (e.endDate ≥ endDate)) ||
  (decide (e.startDate ≥ startDate) && decide (e.endDate ≤ endDate))

/-- The full `where` clause of `checkEventConflict`: same location, blocking
status, one of the three interval cases, and `id: { not: excludeEventId }`
when an exclusion is given. -/
def conflictWhere (location : String) (startDate endDate : Int)
    (excludeEventId : Option String) (e : Event) : Bool :=
  e.location == location &&
  statusBlocking e.status &&
  conflictCases e startDate endDate &&
  (match excludeEventId with
   | some i => e.id != i
   | none => true)

/-- Result of `checkEventConflict`: `hasConflict` plus the first matching event. -/
structure ConflictResult where
  hasConflict : Bool
  conflictingEvent : Option Event
deriving DecidableEq, Repr

/-- `checkEventConflict(location, startDate, endDate, excludeEventId?)`:
`prisma.event.findFirst` on the conflict `where` clause;
`hasConflict = !!conflictingEvent`. -/
def checkEventConflict (db : List Event) (location : String)
    (startDate endDate : Int) (excludeEventId : Option String) : ConflictResult :=
  let conflictingEvent := db.find? (conflictWhere location startDate endDate excludeEventId)
  { hasConflict := conflictingEvent.isSome, conflictingEvent := conflictingEvent }

/-- JS `a || b` on the organizer strings: `name` falls through to `clubName`
when falsy (the empty string). -/
def jsOrName (a : String) (b : Option String) : Option String :=
  if a == "" then b else some a

/-- The `conflictingEvent` payload the handlers put in a 409 / unavailable
response: id, title, dates, and organizer
(`createdBy?.name || createdBy?.clubName`). -/
structure ConflictInfo where
  id : String
  title : String
  startDate : Int
  endDate : Int
  organizer : Option String
deriving DecidableEq, Repr

/-- Build the 409 payload from the conflicting event. -/
def conflictInfoOf (e : Event) : ConflictInfo :=
  { id := e.id
    title := e.title
    startDate := e.startDate
    endDate := e.endDate
    organizer := jsOrName e.createdBy.name e.createdBy.clubName }

/-- The venue-booked message text (JS `toLocaleString` rendered as `toString`). -/
def bookedMessage (c : Event) : String :=
  "This venue is already booked for \"" ++ c.title ++ "\" from " ++
    toString c.startDate ++ " to " ++ toString c.endDate

/-- Response of `checkAvailability`. -/
inductive AvailabilityResponse where
  | badRequest (error : String)
  | ok (available : Bool) (message : String) (conflict : Option ConflictInfo)
deriving DecidableEq, Repr

/-- `checkAvailability`: requires location, startDate, endDate; rejects
`start ≥ end`; otherwise calls `checkEventConflict` and reshapes the result. -/
def checkAvailability (db : List Event) (location : Option String)
    (startDate endDate : Option Int) (excludeEventId : Option String) :
    AvailabilityResponse :=
  match location, startDate, endDate with
  | some loc, some s, some e =>
    if s ≥ e then
      AvailabilityResponse.badRequest "End date must be after start date"
    else
      match (checkEventConflict db loc s e excludeEventId).conflictingEvent with
      | some c =>
        AvailabilityResponse.ok false
          ("This venue is already booked for \"" ++ c.title ++ "\"")
          (some (conflictInfoOf c))
      | none =>
        AvailabilityResponse.ok true "Venue is available for the selected time" none
  | _, _, _ =>
    AvailabilityResponse.badRequest "Location, start date, and end date are required"

/-- The `where` clause of `getVenueSchedule`'s `findMany`: same location,
blocking status, and the three inclusive range cases (starts within range,
ends within range, spans the range). -/
def scheduleWhere (location : String) (start end_ : Int) (e : Event) : Bool :=
  e.location == location &&
  statusBlocking e.status &&
  ((decide (start ≤ e.startDate) && decide (e.startDate ≤ end_)) ||
   (decide (start ≤ e.endDate) && decide (e.endDate ≤ end_)) ||
   (decide (e.startDate ≤ start) && decide (e.endDate ≥ end_)))

/-- Insert an event into a list sorted by `startDate` ascending. -/
def insertByStart (e : Event) : List Event → List Event
  | [] => [e]
  | f :: fs =>
    if e.startDate ≤ f.startDate then e :: f :: fs else f :: insertByStart e fs

/-- Sort a list of events by `startDate` ascending
(the `orderBy: { startDate: 'asc' }` of the schedule query). -/
def sortByStart : List Event → List Event
  | [] => []
  | e :: es => insertByStart e (sortByStart es)

/-- A booked slot in the venue-schedule response. -/
structure BookedSlot where
  id : String
  title : String
  start : Int
  end_ : Int
  status : EventStatus
  organizer : String
deriving DecidableEq, Repr

/-- The `bookedSlots.map(...)` projection of the schedule handler. -/
def toBookedSlot (e : Event) : BookedSlot :=
  { id := e.id
    title := e.title
    start := e.startDate
    end_ := e.endDate
    status := e.status
    organizer := e.createdBy.name }

/-- Successful payload of `getVenueSchedule`. -/
structure ScheduleOk where
  location : String
  startDate : Int
  endDate : Int
  bookedSlots : List BookedSlot
deriving DecidableEq, Repr

/-- Response of `getVenueSchedule`. -/
inductive ScheduleResponse where
  | badRequest (error : String)
  | ok (resp : ScheduleOk)
deriving DecidableEq, Repr

/-- `getVenueSchedule(location, startDate?, endDate?)`: location required;
`start` defaults to now, `end` defaults to `start + 7 days`; fetches the
matching events ordered by `startDate` ascending and maps them to slots. -/
def getVenueSchedule (db : List Event) (location : Option String)
    (startDate endDate : Option Int) (now : Int) : ScheduleResponse :=
  match location with
  | none => ScheduleResponse.badRequest "Location is required"
  | some loc =>
    let start := match startDate with
      | some s => s
      | none => now
    let end_ := match endDate with
      | some e => e
      | none => start + 7 * 24 * 60 * 60 * 1000
    let bookedSlots := (sortByStart (db.filter (scheduleWhere loc start end_))).map toBookedSlot
    ScheduleResponse.ok
      { location := loc, startDate := start, endDate := end_, bookedSlots := bookedSlots }

/-- The body fields of a create-event request, after the express-validator
checks (title/description/location/category non-empty, dates ISO,
maxAttendees ≥ 1) and tag parsing. -/
structure CreateEventRequest where
  title : String
  description : String
  location : String
  startDate : Int
  endDate : Int
  maxAttendees : Int
  category : String
  tags : List String
deriving DecidableEq, Repr

/-- Responses of the create/update event handlers, tagged by HTTP status. -/
inductive EventResponse where
  | badRequest (error : String)
  | notFound (error : String)
  | forbidden (error : String)
  | conflict (error : String) (message : String) (conflictingEvent : ConflictInfo)
  | created (message : String) (event : Event)
  | okUpdated (message : String) (event : Event)
deriving DecidableEq, Repr

/-- `createEvent`: validates `start < end` and `start` not in the past, runs
the conflict check, and on success persists a new PENDING event.  Returns the
response together with the resulting event store. -/
def createEvent (db : List Event) (req : CreateEventRequest) (userId : String)
    (user : CreatedBy) (now : Int) (newId : String) : EventResponse × List Event :=
  if req.startDate ≥ req.endDate then
    (EventResponse.badRequest "End date must be after start date", db)
  else if req.startDate < now then
    (EventResponse.badRequest "Start date must be in the future", db)
  else
    match (checkEventConflict db req.location req.startDate req.endDate none).conflictingEvent with
    | some c =>
      (EventResponse.conflict "Venue conflict detected" (bookedMessage c) (conflictInfoOf c), db)
    | none =>
      let ev : Event :=
        { id := newId
          title := req.title
          description := req.description
          location := req.location
          startDate := req.startDate
          endDate := req.endDate
          maxAttendees := req.maxAttendees
          category := req.category
          tags := req.tags
          status := EventStatus.PENDING
          createdById := userId
          createdBy := user }
      (EventResponse.created "Event created successfully and pending approval" ev, db ++ [ev])

/-- The body fields of an update-event request; absent fields are `none`. -/
structure UpdateEventRequest where
  title : Option String
  description : Option String
  location : Option String
  startDate : Option Int
  endDate : Option Int
  maxAttendees : Option Int
  category : Option String
  tags : Option (List String)
deriving DecidableEq, Repr

/-- `prisma.event.findUnique({ where: { id } })`. -/
def findUnique (db : List Event) (id : String) : Option Event :=
  db.find? (fun e => e.id == id)

/-- The `data` spread of `prisma.event.update`: each supplied field replaces
the stored one. -/
def applyUpdate (event : Event) (req : UpdateEventRequest) : Event :=
  { event with
    title := req.title.getD event.title
    description := req.description.getD event.description
    location := req.location.getD event.location
    startDate := req.startDate.getD event.startDate
    endDate := req.endDate.getD event.endDate
    maxAttendees := req.maxAttendees.getD event.maxAttendees
    category := req.category.getD event.category
    tags := req.tags.getD event.tags }

/-- `updateEvent`: 404 when the id is unknown, 403 unless creator or ADMIN;
when location or a date is being updated, validates the (merged) dates and
runs the conflict check excluding the event itself; then persists the merged
fields.  Returns the response together with the resulting event store. -/
def updateEvent (db : List Event) (id : String) (req : UpdateEventRequest)
    (userId : String) (role : String) : EventResponse × List Event :=
  match findUnique db id with
  | none => (EventResponse.notFound "Event not found", db)
  | some event =>
    if event.createdById != userId && role != "ADMIN" then
      (EventResponse.forbidden "You can only update your own events", db)
    else
      let gate : Option EventResponse :=
        if req.location.isSome || req.startDate.isSome || req.endDate.isSome then
          let newLocation := req.location.getD event.location
          let newStartDate := req.startDate.getD event.startDate
          let newEndDate := req.endDate.getD event.endDate
          if newStartDate ≥ newEndDate then
            some (EventResponse.badRequest "End date must be after start date")
          else
            match (checkEventConflict db newLocation newStartDate newEndDate (some id)).conflictingEvent with
            | some c =>
              some (EventResponse.conflict "Venue conflict detected" (bookedMessage c) (conflictInfoOf c))
            | none => none
        else none
      match gate with
      | some resp => (resp, db)
      | none =>
        let updated := applyUpdate event req
        (EventResponse.okUpdated "Event updated successfully" updated,
         db.map (fun e => if e.id == id then updated else e))

/-! Helper lemmas about the embedded queries. -/

theorem statusBlocking_iff (s : EventStatus) :
    statusBlocking s = true ↔ (s = EventStatus.PENDING ∨ s = EventStatus.APPROVED) := by
  cases s <;> simp [statusBlocking]

theorem checkEventConflict_conflictingEvent (db : List Event) (loc : String)
    (ns ne : Int) (ex : Option String) :
    (checkEventConflict db loc ns ne ex).conflictingEvent =
      db.find? (conflictWhere loc ns ne ex) := rfl

theorem checkEventConflict_hasConflict (db : List Event) (loc : String)
    (ns ne : Int) (ex : Option String) :
    (checkEventConflict db loc ns ne ex).hasConflict =
      (db.find? (conflictWhere loc ns ne ex)).isSome := rfl

theorem checkEventConflict_singleton (e : Event) (loc : String)
    (ns ne : Int) (ex : Option String) :
    (checkEventConflict [e] loc ns ne ex).hasConflict = conflictWhere loc ns ne ex e := by
  rw [checkEventConflict_hasConflict]
  cases hpe : conflictWhere loc ns ne ex e <;> simp [List.find?, hpe]

theorem conflictCases_iff_overlap (e : Event) (ns ne : Int)
    (hn : ns < ne) (he : e.startDate < e.endDate) :
    conflictCases e ns ne = true ↔ (ns < e.endDate ∧ e.startDate < ne) := by
  simp only [conflictCases, Bool.or_eq_true, Bool.and_eq_true, decide_eq_true_eq]
  omega

theorem mem_insertByStart (a e : Event) (l : List Event) :
    a ∈ insertByStart e l ↔ a = e ∨ a ∈ l := by
  induction l with
  | nil => simp [insertByStart]
  | cons f fs ih =>
    simp only [insertByStart]
    split
    · simp
    · simp only [List.mem_cons, ih]
      tauto

theorem mem_sortByStart (a : Event) (l : List Event) :
    a ∈ sortByStart l ↔ a ∈ l := by
  induction l with
  | nil => simp [sortByStart]
  | cons e es ih => simp [sortByStart, mem_insertByStart, ih]

theorem pairwise_insertByStart (e : Event) (l : List Event)
    (h : l.Pairwise (fun a b => a.startDate ≤ b.startDate)) :
    (insertByStart e l).Pairwise (fun a b => a.startDate ≤ b.startDate) := by
  induction l with
  | nil => simp [insertByStart]
  | cons f fs ih =>
    rcases List.pairwise_cons.mp h with ⟨hf, hfs⟩
    simp only [insertByStart]
    split
    · rename_i hef
      refine List.pairwise_cons.mpr ⟨?_, h⟩
      intro x hx
      rcases List.mem_cons.mp hx with h1 | h2
      · exact h1 ▸ hef
      · exact le_trans hef (hf x h2)
    · rename_i hef
      refine List.pairwise_cons.mpr ⟨?_, ih hfs⟩
      intro x hx
      rcases (mem_insertByStart x e fs).mp hx with h1 | h2
      · subst h1
        omega
      · exact hf x h2

theorem pairwise_sortByStart (l : List Event) :
    (sortByStart l).Pairwise (fun a b => a.startDate ≤ b.startDate) := by
  induction l with
  | nil => simp [sortByStart]
  | cons e es ih => exact pairwise_insertByStart e _ ih

theorem authCheckPasses (event : Event) (userId role : String)
    (h : event.createdById = userId ∨ role = "ADMIN") :
    (event.createdById != userId && role != "ADMIN") = false := by
  rcases h with h | h <;> simp [h]

/-! Sample records used by the witness theorems. -/

/-- An organizer record. -/
def sampleOrganizer : CreatedBy :=
  { name := "Alice", clubName := some "Chess Club" }

/-- An approved event booked 10–12 at location "Hall". -/
def hallEvent : Event :=
  { id := "e1"
    title := "Seminar"
    description := "a talk"
    location := "Hall"
    startDate := 10
    endDate := 12
    maxAttendees := 50
    category := "talk"
    tags := []
    status := EventStatus.APPROVED
    createdById := "u1"
    createdBy := sampleOrganizer }

/-- A rejected event in the same slot at "Hall". -/
def rejectedEvent : Event :=
  { hallEvent with id := "e2", status := EventStatus.REJECTED }

/-- Another pending event 11–13 at "Hall" with a different id. -/
def otherEvent : Event :=
  { hallEvent with
    id := "e3"
    startDate := 11
    endDate := 13
    status := EventStatus.PENDING }

/-! Claim theorems. -/

/-- C1: for a conflict query with new.start < new.end against a stored
Pending/Approved event at the same location whose interval satisfies the
stored invariant start < end (and which is not the excluded id),
`checkEventConflict` reports a conflict iff the intervals overlap in the
general strict sense: new.start < existing.end and existing.start < new.end;
i.e. the disjunction of the three coded cases is equivalent to the general
strict-overlap formula. -/
theorem checkEventConflict_reports_iff_general_overlap
    (e : Event) (ns ne : Int) (ex : Option String)
    (hn : ns < ne) (he : e.startDate < e.endDate)
    (hs : statusBlocking e.status = true)
    (hex : ∀ i, ex = some i → e.id ≠ i) :
    (checkEventConflict [e] e.location ns ne ex).hasConflict = true ↔
      (ns < e.endDate ∧ e.startDate < ne) := by
  rw [checkEventConflict_singleton]
  have hw : conflictWhere e.location ns ne ex e = conflictCases e ns ne := by
    unfold conflictWhere
    cases ex with
    | none => simp [hs]
    | some i => simp [hs, bne_iff_ne, hex i rfl]
  rw [hw]
  exact conflictCases_iff_overlap e ns ne hn he

/-- Witness for C1 at a concrete overlapping pair: existing 10–12, new 11–13. -/
theorem checkEventConflict_reports_iff_general_overlap_witness :
    (checkEventConflict [hallEvent] hallEvent.location 11 13 none).hasConflict = true :=
  (checkEventConflict_reports_iff_general_overlap hallEvent 11 13 none
    (by decide) (by decide) (by decide) (fun i h => by cases h)).mpr (by decide)

/-- C2: a candidate interval that only touches a stored Pending/Approved
event at a shared endpoint (existing.end = new.start or new.end =
existing.start) is reported conflict-free by `checkEventConflict`. -/
theorem checkEventConflict_touching_endpoints_no_conflict
    (e : Event) (ns ne : Int) (ex : Option String)
    (hn : ns < ne) (he : e.startDate < e.endDate)
    (ht : e.endDate = ns ∨ ne = e.startDate) :
    (checkEventConflict [e] e.location ns ne ex).hasConflict = false := by
  rw [checkEventConflict_singleton]
  have hc : conflictCases e ns ne = false := by
    cases hcc : conflictCases e ns ne
    · rfl
    · exfalso
      simp only [conflictCases, Bool.or_eq_true, Bool.and_eq_true,
        decide_eq_true_eq] at hcc
      omega
  simp [conflictWhere, hc]

/-- Witness for C2: existing event 10–12 at "Hall"; new events 12–13 and
9–10 are both conflict-free. -/
theorem checkEventConflict_touching_endpoints_no_conflict_witness :
    (checkEventConflict [hallEvent] hallEvent.location 12 13 none).hasConflict = false ∧
    (checkEventConflict [hallEvent] hallEvent.location 9 10 none).hasConflict = false :=
  ⟨checkEventConflict_touching_endpoints_no_conflict hallEvent 12 13 none
      (by decide) (by decide) (Or.inl (by decide)),
   checkEventConflict_touching_endpoints_no_conflict hallEvent 9 10 none
      (by decide) (by decide) (Or.inr (by decide))⟩

/-- C4: a stored event whose status is Rejected or Cancelled is never the
event reported as conflicting by `checkEventConflict`, for any store, any
location, any interval and any exclusion. -/
theorem checkEventConflict_never_reports_rejected_cancelled
    (db : List Event) (loc : String) (ns ne : Int) (ex : Option String) (e : Event)
    (h : e.status = EventStatus.REJECTED ∨ e.status = EventStatus.CANCELLED) :
    (checkEventConflict db loc ns ne ex).conflictingEvent ≠ some e := by
  rw [checkEventConflict_conflictingEvent]
  intro hsome
  have hp : conflictWhere loc ns ne ex e = true := List.find?_some hsome
  have hst : statusBlocking e.status = true := by
    simp only [conflictWhere, Bool.and_eq_true] at hp
    exact hp.1.1.2
  rcases h with h | h <;> rw [h] at hst <;> simp [statusBlocking] at hst

/-- Witness for C4: a rejected event occupying the very interval queried is
not reported. -/
theorem checkEventConflict_never_reports_rejected_cancelled_witness :
    (checkEventConflict [rejectedEvent] "Hall" 10 12 none).conflictingEvent ≠
      some rejectedEvent :=
  checkEventConflict_never_reports_rejected_cancelled [rejectedEvent] "Hall" 10 12 none
    rejectedEvent (Or.inl (by decide))

/-- C5: with `excludeEventId` set to an event's own id, `checkEventConflict`
at that event's location never reports the event itself, and any reported
conflict comes from a different stored Pending/Approved event at the same
location whose interval satisfies the overlap cases. -/
theorem checkEventConflict_excludes_self
    (db : List Event) (e : Event) (ns ne : Int) :
    (checkEventConflict db e.location ns ne (some e.id)).conflictingEvent ≠ some e ∧
    ((checkEventConflict db e.location ns ne (some e.id)).hasConflict = true →
      ∃ c, c ∈ db ∧ c.id ≠ e.id ∧ statusBlocking c.status = true ∧
        c.location = e.location ∧ conflictCases c ns ne = true) := by
  constructor
  · rw [checkEventConflict_conflictingEvent]
    intro hsome
    have hp : conflictWhere e.location ns ne (some e.id) e = true := List.find?_some hsome
    simp only [conflictWhere, Bool.and_eq_true] at hp
    have : (e.id != e.id) = true := hp.2
    simp at this
  · rw [checkEventConflict_hasConflict]
    intro hsome
    rcases Option.isSome_iff_exists.mp hsome with ⟨c, hc⟩
    have hp : conflictWhere e.location ns ne (some e.id) c = true := List.find?_some hc
    have hmem : c ∈ db := List.mem_of_find?_eq_some hc
    simp only [conflictWhere, Bool.and_eq_true] at hp
    refine ⟨c, hmem, ?_, hp.1.1.2, ?_, hp.1.2⟩
    · exact bne_iff_ne.mp hp.2
    · exact eq_of_beq hp.1.1.1

/-- Witness for C5: excluding "e1" at its own slot 10–12, the reported
conflict is the distinct overlapping pending event "e3". -/
theorem checkEventConflict_excludes_self_witness :
    (checkEventConflict [hallEvent, otherEvent] hallEvent.location 10 12
        (some hallEvent.id)).conflictingEvent ≠ some hallEvent ∧
    ∃ c, c ∈ [hallEvent, otherEvent] ∧ c.id ≠ hallEvent.id ∧
      statusBlocking c.status = true ∧ c.location = hallEvent.location ∧
      conflictCases c 10 12 = true :=
  ⟨(checkEventConflict_excludes_self [hallEvent, otherEvent] hallEvent 10 12).1,
   (checkEventConflict_excludes_self [hallEvent, otherEvent] hallEvent 10 12).2 (by decide)⟩

/-- C6: `checkAvailability` whose request misses location, startDate or
endDate, or whose parsed dates satisfy startDate ≥ endDate, returns a
validation error and never queries the store (its answer does not depend on
the store contents); when all three fields are present and startDate <
endDate it fully succeeds with a boolean availability answer. -/
theorem checkAvailability_validates_before_query :
    (∀ (db db' : List Event) (loc : Option String) (sd ed : Option Int) (ex : Option String),
      (loc = none ∨ sd = none ∨ ed = none ∨ (∃ s t, sd = some s ∧ ed = some t ∧ s ≥ t)) →
      (∃ m, checkAvailability db loc sd ed ex = AvailabilityResponse.badRequest m) ∧
      checkAvailability db loc sd ed ex = checkAvailability db' loc sd ed ex) ∧
    (∀ (db : List Event) (l : String) (s t : Int) (ex : Option String),
      s < t →
      ∃ b m cf, checkAvailability db (some l) (some s) (some t) ex =
        AvailabilityResponse.ok b m cf) := by
  constructor
  · intro db db' loc sd ed ex h
    rcases h with h | h | h | ⟨s, t, hs, ht, hge⟩
    · subst h
      exact ⟨⟨_, rfl⟩, rfl⟩
    · subst h
      cases loc <;> exact ⟨⟨_, rfl⟩, rfl⟩
    · subst h
      cases loc <;> cases sd <;> exact ⟨⟨_, rfl⟩, rfl⟩
    · subst hs
      subst ht
      cases loc with
      | none => exact ⟨⟨_, rfl⟩, rfl⟩
      | some l =>
        have hb : ∀ dbx : List Event,
            checkAvailability dbx (some l) (some s) (some t) ex =
              AvailabilityResponse.badRequest "End date must be after start date" := by
          intro dbx
          simp only [checkAvailability]
          rw [if_pos hge]
        exact ⟨⟨_, hb db⟩, (hb db).trans (hb db').symm⟩
  · intro db l s t ex hlt
    have hni : ¬ s ≥ t := by omega
    cases hm : (checkEventConflict db l s t ex).conflictingEvent with
    | none =>
      refine ⟨true, "Venue is available for the selected time", none, ?_⟩
      simp only [checkAvailability]
      rw [if_neg hni, hm]
    | some c =>
      refine ⟨false, "This venue is already booked for \"" ++ c.title ++ "\"",
        some (conflictInfoOf c), ?_⟩
      simp only [checkAvailability]
      rw [if_neg hni, hm]

/-- Witness for C6: a request with start 5 and end 3 fails validation for
both an empty and a non-empty store; a request with start 1 and end 2
succeeds with a boolean answer. -/
theorem checkAvailability_validates_before_query_witness :
    ((∃ m, checkAvailability [] (some "Hall") (some 5) (some 3) none =
        AvailabilityResponse.badRequest m) ∧
      checkAvailability [] (some "Hall") (some 5) (some 3) none =
        checkAvailability [hallEvent] (some "Hall") (some 5) (some 3) none) ∧
    (∃ b m cf, checkAvailability [] (some "Hall") (some 1) (some 2) none =
      AvailabilityResponse.ok b m cf) :=
  ⟨checkAvailability_validates_before_query.1 [] [hallEvent] (some "Hall") (some 5)
      (some 3) none (Or.inr (Or.inr (Or.inr ⟨5, 3, rfl, rfl, by decide⟩))),
   checkAvailability_validates_before_query.2 [] "Hall" 1 2 none (by decide)⟩

/-- C9: `createEvent` rejects any request whose start date is in the past
with a 400 "Start date must be in the future", for every store, and leaves
the store unchanged (the conflict check never runs and nothing is
persisted). -/
theorem createEvent_rejects_past_start
    (db : List Event) (req : CreateEventRequest) (userId : String)
    (user : CreatedBy) (now : Int) (newId : String)
    (hlt : req.startDate < req.endDate) (hpast : req.startDate < now) :
    createEvent db req userId user now newId =
      (EventResponse.badRequest "Start date must be in the future", db) := by
  simp only [createEvent]
  rw [if_neg (by omega), if_pos hpast]

/-- A well-formed create request for slot 5–8 at "Hall". -/
def sampleCreateReq : CreateEventRequest :=
  { title := "Workshop"
    description := "hands-on"
    location := "Hall"
    startDate := 5
    endDate := 8
    maxAttendees := 10
    category := "workshop"
    tags := [] }

/-- Witness for C9: at now = 6, the 5–8 request is rejected as in the past
and the store is untouched. -/
theorem createEvent_rejects_past_start_witness :
    createEvent [hallEvent] sampleCreateReq "u1" sampleOrganizer 6 "e9" =
      (EventResponse.badRequest "Start date must be in the future", [hallEvent]) :=
  createEvent_rejects_past_start [hallEvent] sampleCreateReq "u1" sampleOrganizer 6 "e9"
    (by decide) (by decide)

/-- C10: an update request that supplies none of location, startDate and
endDate skips the conflict check and the date validation entirely: for every
store (whatever conflicting events it holds) and every stored target event,
the merged event is persisted and reported updated. -/
theorem updateEvent_skips_conflict_check_without_fields
    (db : List Event) (id : String) (req : UpdateEventRequest)
    (userId role : String) (ev : Event)
    (hfind : findUnique db id = some ev)
    (hauth : ev.createdById = userId ∨ role = "ADMIN")
    (hl : req.location = none) (hs : req.startDate = none) (he : req.endDate = none) :
    updateEvent db id req userId role =
      (EventResponse.okUpdated "Event updated successfully" (applyUpdate ev req),
       db.map (fun e => if e.id == id then applyUpdate ev req else e)) := by
  simp only [updateEvent, hfind]
  rw [authCheckPasses ev userId role hauth]
  simp [hl, hs, he]

/-- An update request supplying only a new title. -/
def titleOnlyReq : UpdateEventRequest :=
  { title := some "New title"
    description := none
    location := none
    startDate := none
    endDate := none
    maxAttendees := none
    category := none
    tags := none }

/-- Witness for C10: updating only the title of "e1" succeeds although the
store also holds the overlapping pending event "e3" in the same venue. -/
theorem updateEvent_skips_conflict_check_without_fields_witness :
    updateEvent [hallEvent, otherEvent] "e1" titleOnlyReq "u1" "ORGANIZER" =
      (EventResponse.okUpdated "Event updated successfully" (applyUpdate hallEvent titleOnlyReq),
       [hallEvent, otherEvent].map
         (fun e => if e.id == "e1" then applyUpdate hallEvent titleOnlyReq else e)) :=
  updateEvent_skips_conflict_check_without_fields [hallEvent, otherEvent] "e1"
    titleOnlyReq "u1" "ORGANIZER" hallEvent (by decide) (Or.inl (by decide))
    rfl rfl rfl

/-- C7: `getVenueSchedule` with a location but no dates windows from `now`
to exactly `now + 7 * 24 * 60 * 60 * 1000`; and every successful response has
its bookedSlots sorted ascending by start time. -/
theorem getVenueSchedule_defaults_and_sorted :
    (∀ (db : List Event) (l : String) (now : Int),
      ∃ slots, getVenueSchedule db (some l) none none now =
        ScheduleResponse.ok ⟨l, now, now + 7 * 24 * 60 * 60 * 1000, slots⟩) ∧
    (∀ (db : List Event) (loc : Option String) (sd ed : Option Int) (now : Int)
        (r : ScheduleOk),
      getVenueSchedule db loc sd ed now = ScheduleResponse.ok r →
      r.bookedSlots.Pairwise (fun a b => a.start ≤ b.start)) := by
  constructor
  · intro db l now
    exact ⟨_, rfl⟩
  · intro db loc sd ed now r h
    cases loc with
    | none => simp [getVenueSchedule] at h
    | some l =>
      simp only [getVenueSchedule, ScheduleResponse.ok.injEq] at h
      subst h
      exact (pairwise_sortByStart _).map toBookedSlot (fun a b hab => hab)

/-- Witness for C7: the empty store windows "Hall" from 0 to 604800000, and
the concrete schedule for "Hall" over 0–100 is sorted by start. -/
theorem getVenueSchedule_defaults_and_sorted_witness :
    (∃ slots, getVenueSchedule [] (some "Hall") none none 0 =
      ScheduleResponse.ok ⟨"Hall", 0, 0 + 7 * 24 * 60 * 60 * 1000, slots⟩) ∧
    (ScheduleOk.mk "Hall" 0 100 [toBookedSlot hallEvent, toBookedSlot otherEvent]).bookedSlots.Pairwise
      (fun a b => a.start ≤ b.start) :=
  ⟨getVenueSchedule_defaults_and_sorted.1 [] "Hall" 0,
   getVenueSchedule_defaults_and_sorted.2 [hallEvent, otherEvent] (some "Hall")
     (some 0) (some 100) 0 ⟨"Hall", 0, 100, [toBookedSlot hallEvent, toBookedSlot otherEvent]⟩
     (by decide)⟩

/-- C3: `getVenueSchedule` over an explicit window returns exactly the
Pending/Approved events at the venue satisfying the closed-interval
predicate (start ≤ e.start ≤ end) ∨ (start ≤ e.end ≤ end) ∨ (e.start ≤ start
∧ e.end ≥ end); and this is strictly more inclusive than
`checkEventConflict`: the event 10–12 with e.end equal to the window start 12
appears as a booked slot of the 12–20 window although `checkEventConflict`
over that same window reports no conflict. -/
theorem getVenueSchedule_inclusive_semantics :
    (∀ (db : List Event) (loc : String) (s t now : Int),
      ∃ slots, getVenueSchedule db (some loc) (some s) (some t) now =
          ScheduleResponse.ok ⟨loc, s, t, slots⟩ ∧
        ∀ slot, slot ∈ slots ↔
          ∃ e, e ∈ db ∧ e.location = loc ∧
            (e.status = EventStatus.PENDING ∨ e.status = EventStatus.APPROVED) ∧
            ((s ≤ e.startDate ∧ e.startDate ≤ t) ∨
             (s ≤ e.endDate ∧ e.endDate ≤ t) ∨
             (e.startDate ≤ s ∧ e.endDate ≥ t)) ∧
            slot = toBookedSlot e) ∧
    (getVenueSchedule [hallEvent] (some "Hall") (some 12) (some 20) 0 =
        ScheduleResponse.ok ⟨"Hall", 12, 20, [toBookedSlot hallEvent]⟩ ∧
      (checkEventConflict [hallEvent] "Hall" 12 20 none).hasConflict = false) := by
  constructor
  · intro db loc s t now
    refine ⟨_, rfl, ?_⟩
    intro slot
    simp only [List.mem_map, mem_sortByStart, List.mem_filter]
    constructor
    · rintro ⟨e, ⟨hmem, hw⟩, rfl⟩
      simp only [scheduleWhere, Bool.and_eq_true, Bool.or_eq_true, decide_eq_true_eq,
        beq_iff_eq, statusBlocking_iff, or_assoc] at hw
      exact ⟨e, hmem, hw.1.1, hw.1.2, hw.2, rfl⟩
    · rintro ⟨e, hmem, hloc, hst, hcases, rfl⟩
      refine ⟨e, ⟨hmem, ?_⟩, rfl⟩
      simp only [scheduleWhere, Bool.and_eq_true, Bool.or_eq_true, decide_eq_true_eq,
        beq_iff_eq, statusBlocking_iff, or_assoc]
      exact ⟨⟨hloc, hst⟩, hcases⟩
  · exact ⟨by decide, by decide⟩

/-- C8: both event-write handlers run the conflict check before persisting:
whenever the conflict check finds a blocking event, `createEvent`
(resp. `updateEvent`, when it checks) returns the 409 conflict response
carrying the error, the booked message and the blocking event's id, title,
dates and organizer (name falling back to club name), and leaves the event
store unchanged. -/
theorem create_update_conflict_responds_409_and_persists_nothing :
    (∀ (db : List Event) (req : CreateEventRequest) (userId : String)
        (user : CreatedBy) (now : Int) (newId : String) (c : Event),
      req.startDate < req.endDate →
      now ≤ req.startDate →
      (checkEventConflict db req.location req.startDate req.endDate none).conflictingEvent
        = some c →
      createEvent db req userId user now newId =
        (EventResponse.conflict "Venue conflict detected" (bookedMessage c)
          (conflictInfoOf c), db)) ∧
    (∀ (db : List Event) (id : String) (req : UpdateEventRequest)
        (userId role : String) (ev c : Event),
      findUnique db id = some ev →
      (ev.createdById = userId ∨ role = "ADMIN") →
      (req.location.isSome || req.startDate.isSome || req.endDate.isSome) = true →
      req.startDate.getD ev.startDate < req.endDate.getD ev.endDate →
      (checkEventConflict db (req.location.getD ev.location)
          (req.startDate.getD ev.startDate) (req.endDate.getD ev.endDate)
          (some id)).conflictingEvent = some c →
      updateEvent db id req userId role =
        (EventResponse.conflict "Venue conflict detected" (bookedMessage c)
          (conflictInfoOf c), db)) := by
  constructor
  · intro db req userId user now newId c h1 h2 hc
    simp only [createEvent]
    rw [if_neg (by omega), if_neg (by omega), hc]
  · intro db id req userId role ev c hfind hauth hfields hdates hc
    have hnd : ¬ (req.startDate.getD ev.startDate ≥ req.endDate.getD ev.endDate) := by
      omega
    simp only [updateEvent, hfind]
    rw [authCheckPasses ev userId role hauth]
    simp only [Bool.false_eq_true, if_false, hfields, if_true, if_neg hnd, hc]

/-- A create request for the conflicting slot 11–13 at "Hall". -/
def conflictCreateReq : CreateEventRequest :=
  { sampleCreateReq with startDate := 11, endDate := 13 }

/-- An update request moving an event to 11–13. -/
def updateTimesReq : UpdateEventRequest :=
  { titleOnlyReq with startDate := some 11, endDate := some 13 }

/-- Witness for C8: creating 11–13 at "Hall" over the 10–12 booking returns
the 409 payload built from that booking; and updating "e1" to 11–13 over the
pending 11–13 event "e3" returns the 409 payload built from "e3"; both leave
the store unchanged. -/
theorem create_update_conflict_responds_409_and_persists_nothing_witness :
    createEvent [hallEvent] conflictCreateReq "u2" sampleOrganizer 11 "e9" =
      (EventResponse.conflict "Venue conflict detected" (bookedMessage hallEvent)
        (conflictInfoOf hallEvent), [hallEvent]) ∧
    updateEvent [hallEvent, otherEvent] "e1" updateTimesReq "u1" "ORGANIZER" =
      (EventResponse.conflict "Venue conflict detected" (bookedMessage otherEvent)
        (conflictInfoOf otherEvent), [hallEvent, otherEvent]) :=
  ⟨create_update_conflict_responds_409_and_persists_nothing.1 [hallEvent]
      conflictCreateReq "u2" sampleOrganizer 11 "e9" hallEvent (by decide) (by decide)
      (by decide),
   create_update_conflict_responds_409_and_persists_nothing.2 [hallEvent, otherEvent]
      "e1" updateTimesReq "u1" "ORGANIZER" hallEvent otherEvent (by decide) (Or.inl (by decide))
      (by decide) (by decide) (by decide)⟩

end CampusEvent
